import Mathlib

/-!
Verification development for the file-orbit transfer-orchestration backend.

Python strings are modelled as `List Char` (`Str`); every program definition
below is a shallow embedding of a function of the backend source
(`worker.py`, `app/services/chain_job_service.py`, `app/services/scheduler.py`,
`app/services/event_monitor.py`, `app/services/redis_manager.py`,
`app/services/throttle_controller.py`), translated statement by statement.
The wall clock is passed explicitly as a `Clock` record; Redis primitives are
modelled by their documented sorted-set / counter semantics.
-/

abbrev Str := List Char

namespace FileOrbit

/-- `s.replace(p, v)` of Python, fuel-indexed so that it is structurally
recursive and computes by kernel reduction.  Python `str.replace` scans left
to right, replacing non-overlapping occurrences; inserted text is not
re-scanned. -/
def replaceAllF (p v : Str) : Nat → Str → Str
  | 0, s => s
  | _ + 1, [] => []
  | n + 1, c :: s =>
    if p ≠ [] ∧ p.isPrefixOf (c :: s) then
      v ++ replaceAllF p v n ((c :: s).drop p.length)
    else
      c :: replaceAllF p v n s

/-- Python `s.replace(p, v)` (for the non-empty patterns the program uses). -/
def replaceAll (p v s : Str) : Str :=
  replaceAllF p v s.length s

/-- Python `p in s` (substring test). -/
def occursB (p : Str) : Str → Bool
  | [] => p.isEmpty
  | c :: t => p.isPrefixOf (c :: t) || occursB p t

/-- A string with no brace characters; template tokens cannot survive in or be
assembled out of such text. -/
def braceFree (s : Str) : Prop := '{' ∉ s ∧ '}' ∉ s

instance (s : Str) : Decidable (braceFree s) := by
  unfold braceFree; infer_instance

/-- `os.path.basename` for POSIX paths: the part after the last slash. -/
def osBasename (p : Str) : Str :=
  (p.reverse.takeWhile (· ≠ '/')).reverse

/-- `os.path.dirname` for POSIX paths: `head = p[: p.rfind('/') + 1]`, with
trailing slashes stripped unless `head` consists only of slashes. -/
def osDirname (p : Str) : Str :=
  let head := p.take (p.length - (osBasename p).length)
  if head ≠ [] ∧ ¬ (head.all (· = '/')) then
    (head.reverse.dropWhile (· = '/')).reverse
  else
    head

/-- `os.path.splitext` applied to a slash-free file name: split at the last
dot, except when every character before that dot is itself a dot (so that
names like `.bashrc` keep their extension-less form). -/
def splitextName (name : Str) : Str × Str :=
  let extLen := (name.reverse.takeWhile (· ≠ '.')).length
  if extLen = name.length then (name, [])
  else
    let stemLen := name.length - extLen - 1
    if (name.take stemLen).all (· = '.') then (name, [])
    else (name.take stemLen, name.drop stemLen)

/-- Decimal digit characters, used to render the clock fields. -/
def digitChar : Nat → Char
  | 0 => '0' | 1 => '1' | 2 => '2' | 3 => '3' | 4 => '4'
  | 5 => '5' | 6 => '6' | 7 => '7' | 8 => '8' | _ => '9'

/-- Decimal rendering, fuel-indexed so that it is structurally recursive and
computes by kernel reduction (`n + 1` units of fuel always suffice). -/
def natDigitsF : Nat → Nat → Str
  | 0, _ => []
  | f + 1, n =>
    if n < 10 then [digitChar n]
    else natDigitsF f (n / 10) ++ [digitChar (n % 10)]

/-- Decimal rendering of a natural number, `str(n)` of Python. -/
def natDigits (n : Nat) : Str := natDigitsF (n + 1) n

/-- Python `f"{n:02d}"`: zero-padded to width two. -/
def format02 (n : Nat) : Str :=
  if n < 10 then '0' :: natDigits n else natDigits n

/-- The decimal digit characters. -/
def decDigits : Str := "0123456789".data

/-- The wall clock observed by `datetime.now()` at an expansion site. -/
structure Clock where
  year : Nat
  month : Nat
  day : Nat
  hour : Nat
  minute : Nat
  tsec : Nat
deriving DecidableEq, Repr

def tokFilename : Str := "{filename}".data
def tokOriginalFilename : Str := "{original_filename}".data
def tokName : Str := "{name}".data
def tokExt : Str := "{ext}".data
def tokYear : Str := "{year}".data
def tokMonth : Str := "{month}".data
def tokDay : Str := "{day}".data
def tokHour : Str := "{hour}".data
def tokMinute : Str := "{minute}".data
def tokTimestamp : Str := "{timestamp}".data
def tokBasename : Str := "{basename}".data
def tokExtension : Str := "{extension}".data

/-- Sequential application of `(pattern, value)` replacement passes, as the
`for key, value in replacements.items(): result = result.replace(key, value)`
loops of the source. -/
def applyPasses (ps : List (Str × Str)) (s : Str) : Str :=
  ps.foldl (fun acc pv => replaceAll pv.1 pv.2 acc) s

/-- The replacement table of `JobProcessor._apply_path_template`
(worker.py lines 457-487), in Python dict insertion order:
`filename = os.path.basename(source_file)`,
`name_without_ext, ext = os.path.splitext(filename)`. -/
def workerPasses (sourceFile : Str) (c : Clock) : List (Str × Str) :=
  [ (tokFilename, osBasename sourceFile),
    (tokOriginalFilename, osBasename sourceFile),
    (tokName, (splitextName (osBasename sourceFile)).1),
    (tokExt, (splitextName (osBasename sourceFile)).2),
    (tokYear, natDigits c.year),
    (tokMonth, format02 c.month),
    (tokDay, format02 c.day),
    (tokHour, format02 c.hour),
    (tokMinute, format02 c.minute),
    (tokTimestamp, natDigits c.tsec) ]

/-- `JobProcessor._apply_path_template(template, source_file)` of worker.py. -/
def workerApplyPathTemplate (template sourceFile : Str) (c : Clock) : Str :=
  applyPasses (workerPasses sourceFile c) template

/-- `EventMonitor._apply_path_template` (event_monitor.py lines 197-223); its
replacement table is identical to the worker's. -/
def eventApplyPathTemplate (template sourcePath : Str) (c : Clock) : Str :=
  applyPasses (workerPasses sourcePath c) template

/-- The six sequential `str.replace` calls of
`ChainJobService._apply_path_template` (chain_job_service.py lines 97-129),
in source order; `{extension}` is the `os.path.splitext` extension with its
leading dots removed (`lstrip('.')`). -/
def chainPasses (sourcePath : Str) (c : Clock) : List (Str × Str) :=
  [ (tokYear, natDigits c.year),
    (tokMonth, format02 c.month),
    (tokDay, format02 c.day),
    (tokFilename, osBasename sourcePath),
    (tokBasename, (splitextName (osBasename sourcePath)).1),
    (tokExtension, ((splitextName (osBasename sourcePath)).2.dropWhile (· = '.'))) ]

/-- `ChainJobService._apply_path_template(template, source_path)`. -/
def chainApplyPathTemplate (template sourcePath : Str) (c : Clock) : Str :=
  applyPasses (chainPasses sourcePath c) template

/-! ## PurePosixPath model (the `pathlib` operations the worker uses) -/

/-- Path components of `PurePosixPath(s)`: split on `/`, dropping empty and
`.` components. -/
def pathSegs (s : Str) : List Str :=
  (s.splitOn '/').filter (fun p => p ≠ [] ∧ p ≠ ['.'])

/-- The root of `PurePosixPath(s)`: `//` for exactly two leading slashes,
`/` for one or three-or-more, empty otherwise. -/
def pathRoot (s : Str) : Str :=
  if s.take 2 = ['/', '/'] ∧ s.take 3 ≠ ['/', '/', '/'] then ['/', '/']
  else if s.take 1 = ['/'] then ['/'] else []

/-- `str()` of a parsed pure path with the given root and components. -/
def pathStr (root : Str) (segs : List Str) : Str :=
  if segs = [] then (if root = [] then ['.'] else root)
  else root ++ List.intercalate ['/'] segs

/-- `PurePosixPath(s).name`. -/
def pathName (s : Str) : Str :=
  ((pathSegs s).getLast?).getD []

/-- `str(PurePosixPath(s).parent)`. -/
def pathParentStr (s : Str) : Str :=
  pathStr (pathRoot s) (pathSegs s).dropLast

/-- `str(PurePosixPath(base) / p)`: if `p` has a root it wins, otherwise the
components are concatenated under `base`'s root. -/
def pathJoinStr (base p : Str) : Str :=
  if pathRoot p ≠ [] then pathStr (pathRoot p) (pathSegs p)
  else pathStr (pathRoot base) (pathSegs base ++ pathSegs p)

/-! ## Endpoint adapter paths (`RcloneService._build_path`,
`JobProcessor._build_remote_path`) -/

/-- The remote configuration `RcloneService._build_path` consults: the
endpoint kind together with the config keys that function reads. -/
inductive EndpointCfg where
  | localFs (basePath : Str)
  | s3 (bucket : Str)
  | smb
  | sftp
  | other
deriving DecidableEq, Repr

/-- `RcloneService._build_path(remote_name, path)` (rclone_service.py lines
194-237). -/
def buildPath (cfg : EndpointCfg) (remoteName path : Str) : Str :=
  match cfg with
  | .localFs basePath =>
      if basePath = [] ∨ basePath = ['/'] then path
      else if path.take 1 = ['/'] then path
      else pathJoinStr basePath path
  | .s3 bucket =>
      if bucket ≠ [] then
        remoteName ++ ':' :: (bucket ++ '/' :: path.dropWhile (· = '/'))
      else remoteName ++ ':' :: path
  | .smb => remoteName ++ ':' :: path.dropWhile (· = '/')
  | .sftp => remoteName ++ ':' :: path
  | .other => remoteName ++ ':' :: path

/-- `JobProcessor._build_remote_path(remote_name, endpoint, base_path,
file_path)` (worker.py lines 433-455). -/
def buildRemotePath (cfg : EndpointCfg) (remoteName basePath filePath : Str) : Str :=
  let path :=
    if filePath.take 1 = ['/'] then filePath
    else if basePath = ['/'] ∨ basePath = [] then filePath
    else if filePath ≠ [] then pathJoinStr basePath filePath
    else basePath
  buildPath cfg remoteName path

def sourceRemoteName : Str := "source".data
def destRemoteName : Str := "dest".data

/-! ## Data model -/

inductive JobStatus where
  | pending | queued | running | completed | failed | cancelled | retrying
deriving DecidableEq, Repr

inductive JobType where
  | manual | eventTriggered | scheduled | chained
deriving DecidableEq, Repr

inductive TransferStatus where
  | pending | inProgress | completed | failed | cancelled
deriving DecidableEq, Repr

/-- A chain rule: `(endpoint_id, path_template)`. -/
structure ChainRule where
  endpointId : Str
  pathTemplate : Str
deriving DecidableEq, Repr

/-- The keys of the Job JSON config bag that the embedded code reads or
writes; an absent key is `none` (`scheduledExecution` is a plain flag,
absent = `false`). -/
structure JobConfig where
  chainRules : Option (List ChainRule)
  parentJobId : Option Str
  parentTransferId : Option Str
  chainIndex : Option Nat
  chainRule : Option ChainRule
  sourceFile : Option Str
  scheduledJobId : Option Str
  transferTemplateId : Option Str
  scheduledExecution : Bool
deriving DecidableEq, Repr

def emptyJobConfig : JobConfig :=
  ⟨none, none, none, none, none, none, none, none, false⟩

/-- A row of the `jobs` table (the columns the embedded code touches).
`parentJobId` is the `parent_job_id` column itself, distinct from the
`parent_job_id` entry some code paths put in the config bag. -/
structure JobRec where
  id : Str
  name : Str
  type : JobType
  status : JobStatus
  sourceEndpointId : Str
  sourcePath : Str
  destinationEndpointId : Str
  destinationPath : Str
  filePattern : Option Str
  deleteSourceAfterTransfer : Bool
  schedule : Option Str
  isActive : Bool
  config : JobConfig
  parentJobId : Option Str
  nextRunAt : Option Nat
  lastRunAt : Option Nat
  totalRuns : Nat
deriving DecidableEq, Repr

/-- A row of the `transfers` table (the columns the embedded code touches). -/
structure TransferRec where
  id : Str
  fileName : Str
  filePath : Str
  destinationPath : Str
  status : TransferStatus
deriving DecidableEq, Repr

/-- New rows receive `str(uuid.uuid4())`; the concrete value is opaque to
every claim, so the model leaves it empty. -/
def uuidPlaceholder : Str := []

def lblDash : Str := " - ".data
def lblChain : Str := " - Chain ".data

/-! ## Worker: per-transfer destination resolution
(`JobProcessor._execute_transfer`, worker.py lines 356-410) -/

/-- The token list of the worker's template guard
(`any(var in dest_base_path for var in [...])`, worker.py line 377). -/
def workerGuardVars : List Str :=
  [tokYear, tokMonth, tokDay, tokFilename, tokOriginalFilename, tokTimestamp]

/-- worker.py lines 374-394: the `dest_path` handed to the copy engine.
If the destination template contains one of the guard tokens it is expanded
and, when the expansion ends in the file name, replaced by its parent
directory; the result goes through `_build_remote_path("dest", …, "")`. -/
def resolveDestBase (destCfg : EndpointCfg) (destinationPath fileName : Str)
    (c : Clock) : Str :=
  buildRemotePath destCfg destRemoteName
    (if workerGuardVars.any (fun v => occursB v destinationPath) then
       (if pathName (workerApplyPathTemplate destinationPath fileName c) = fileName then
          pathParentStr (workerApplyPathTemplate destinationPath fileName c)
        else workerApplyPathTemplate destinationPath fileName c)
     else destinationPath) []

/-- worker.py line 398: `actual_dest_file_path = f"{dest_path}/{transfer.file_name}"`,
the value committed to `Transfer.destination_path`. -/
def resolveDestPath (destCfg : EndpointCfg) (destinationPath fileName : Str)
    (c : Clock) : Str :=
  resolveDestBase destCfg destinationPath fileName c ++ '/' :: fileName

/-- The database / subprocess events of `_execute_transfer` up to the start
of the copy, in program order. -/
inductive TransferEv where
  | statusCommitted (st : TransferStatus)
  | destPathCommitted (p : Str)
  | copyStarted (source dest : Str)
deriving DecidableEq, Repr

/-- The event sequence of `_execute_transfer` (worker.py lines 356-410):
status `IN_PROGRESS` is committed, then the resolved destination path is
committed to the Transfer row, then the copy subprocess is started. -/
def executeTransferStart (srcCfg destCfg : EndpointCfg)
    (jobSourcePath jobDestinationPath : Str) (filePath fileName : Str)
    (c : Clock) : List TransferEv :=
  let sourcePath := buildRemotePath srcCfg sourceRemoteName jobSourcePath filePath
  let destPath := resolveDestBase destCfg jobDestinationPath fileName c
  [ .statusCommitted .inProgress,
    .destPathCommitted (destPath ++ '/' :: fileName),
    .copyStarted sourcePath destPath ]

/-! ## Chain generator (`ChainJobService`, chain_job_service.py) -/

/-- chain_job_service.py lines 177-180: strip everything up to the first
colon when the transfer's resolved destination path contains one. -/
def stripRemoteColon (s : Str) : Str :=
  if s ≠ [] ∧ ':' ∈ s then (s.dropWhile (· ≠ ':')).drop 1 else s

/-- One job of `_create_per_file_chain_jobs` (chain_job_service.py lines
182-225), for the pair of `tr` and rule number `idx`. -/
def mkPerFileChainJob (parent : JobRec) (tr : TransferRec) (idx : Nat)
    (rule : ChainRule) (c : Clock) : JobRec :=
  let asp := stripRemoteColon tr.destinationPath
  let filename := osBasename asp
  let dirPath := if '/' ∈ asp then osDirname asp else []
  { id := uuidPlaceholder,
    name := parent.name ++ lblDash ++ filename ++ lblChain ++ natDigits (idx + 1),
    type := .chained,
    status := .pending,
    sourceEndpointId := parent.destinationEndpointId,
    sourcePath := dirPath,
    destinationEndpointId := rule.endpointId,
    destinationPath := chainApplyPathTemplate rule.pathTemplate asp c,
    filePattern := some filename,
    deleteSourceAfterTransfer := false,
    schedule := none,
    isActive := true,
    config := { emptyJobConfig with
                parentJobId := some parent.id,
                parentTransferId := some tr.id,
                chainIndex := some idx,
                chainRule := some rule,
                sourceFile := some filename },
    parentJobId := some parent.id,
    nextRunAt := none, lastRunAt := none, totalRuns := 0 }

/-- `ChainJobService._create_per_file_chain_jobs` (lines 150-242): one
CHAINED job per (transfer, chain rule) pair. -/
def createPerFileChainJobs (parent : JobRec) (rules : List ChainRule)
    (transfers : List TransferRec) (c : Clock) : List JobRec :=
  transfers.flatMap (fun tr =>
    rules.enum.map (fun ir => mkPerFileChainJob parent tr ir.1 ir.2 c))

/-- One job of the legacy branch of `create_chain_jobs` (lines 50-90). -/
def mkLegacyChainJob (parent : JobRec) (idx : Nat) (rule : ChainRule)
    (c : Clock) : JobRec :=
  { id := uuidPlaceholder,
    name := parent.name ++ lblChain ++ natDigits (idx + 1),
    type := .chained,
    status := .pending,
    sourceEndpointId := parent.destinationEndpointId,
    sourcePath := parent.destinationPath,
    destinationEndpointId := rule.endpointId,
    destinationPath := chainApplyPathTemplate rule.pathTemplate parent.destinationPath c,
    filePattern := parent.filePattern,
    deleteSourceAfterTransfer := false,
    schedule := none,
    isActive := true,
    config := { emptyJobConfig with
                parentJobId := some parent.id,
                chainIndex := some idx,
                chainRule := some rule },
    parentJobId := some parent.id,
    nextRunAt := none, lastRunAt := none, totalRuns := 0 }

/-- The legacy fallback of `create_chain_jobs`: one chain job per rule. -/
def legacyChainJobs (parent : JobRec) (rules : List ChainRule) (c : Clock) :
    List JobRec :=
  rules.enum.map (fun ir => mkLegacyChainJob parent ir.1 ir.2 c)

/-- `ChainJobService.create_chain_jobs` (lines 17-95): empty rules create
nothing; a non-empty `per_file_transfers` list selects the per-file path,
otherwise the legacy path runs. -/
def createChainJobs (parent : JobRec) (rules : List ChainRule)
    (perFile : Option (List TransferRec)) (c : Clock) : List JobRec :=
  if rules = [] then []
  else
    match perFile with
    | some (t :: ts) => createPerFileChainJobs parent rules (t :: ts) c
    | _ => legacyChainJobs parent rules c

/-! ## Worker: job summary and chain processing
(`JobProcessor.execute_job` / `_process_chain_jobs`, worker.py) -/

/-- Outcome of `_execute_transfer` for one materialized transfer: the row as
it stands afterwards and whether the call returned without raising. -/
structure TransferOutcome where
  row : TransferRec
  success : Bool
deriving DecidableEq, Repr

/-- The successful transfers collected by `execute_job`'s loop. -/
def successfulOf (outs : List TransferOutcome) : List TransferRec :=
  (outs.filter (fun o => o.success)).map (fun o => o.row)

/-- The chain jobs `_process_chain_jobs` creates: only when there is at
least one successful transfer and the job config carries a `chain_rules`
key (worker.py lines 575-596). -/
def createdChainJobsOf (job : JobRec) (successes : List TransferRec)
    (c : Clock) : List JobRec :=
  match successes, job.config.chainRules with
  | s :: ss, some rules => createChainJobs job rules (some (s :: ss)) c
  | _, _ => []

/-- The query of worker.py lines 599-606: PENDING CHAINED jobs whose
`parent_job_id` column equals the parent's id. -/
def chainChildrenOf (job : JobRec) (jobs : List JobRec) : List JobRec :=
  jobs.filter (fun j => j.type = JobType.chained ∧ j.parentJobId = some job.id ∧
                        j.status = JobStatus.pending)

/-- `JobProcessor._process_chain_jobs` (worker.py lines 571-630): create
per-file chain jobs when there are successful transfers and the job config
carries a `chain_rules` key, then flip every PENDING CHAINED child of the
parent (pre-existing or just created) to QUEUED and enqueue it.  Returns
(created jobs, enqueued jobs in their queued state). -/
def processChainJobs (job : JobRec) (successes : List TransferRec)
    (preExisting : List JobRec) (c : Clock) : List JobRec × List JobRec :=
  (createdChainJobsOf job successes c,
   (chainChildrenOf job (preExisting ++ createdChainJobsOf job successes c)).map
     (fun j => { j with status := JobStatus.queued }))

/-- The final state `execute_job` leaves behind (worker.py lines 238-252). -/
structure ExecResult where
  status : JobStatus
  created : List JobRec
  enqueued : List JobRec
deriving DecidableEq, Repr

/-- The summary step of `JobProcessor.execute_job` (worker.py lines
186-252): COMPLETED plus chain processing when every transfer succeeded,
FAILED and nothing spawned otherwise. -/
def executeJobSummary (job : JobRec) (outcomes : List TransferOutcome)
    (preExisting : List JobRec) (c : Clock) : ExecResult :=
  if (successfulOf outcomes).length = outcomes.length then
    { status := JobStatus.completed,
      created := (processChainJobs job (successfulOf outcomes) preExisting c).1,
      enqueued := (processChainJobs job (successfulOf outcomes) preExisting c).2 }
  else
    { status := JobStatus.failed, created := [], enqueued := [] }

/-! ## Scheduler (`JobScheduler._execute_scheduled_job`, scheduler.py lines
91-137) -/

/-- The methods `RedisManager` defines (redis_manager.py). -/
def redisManagerMethods : List String :=
  ["connect", "disconnect", "enqueue_job", "dequeue_job", "get_queue_length",
   "set_job_status", "get_job_status", "increment_endpoint_counter",
   "decrement_endpoint_counter", "get_endpoint_counter",
   "reset_endpoint_counter", "publish_event", "subscribe"]

/-- The attribute the scheduler invokes on its redis manager at
scheduler.py line 131. -/
def schedulerEnqueueAttr : String := "queue_job"

/-- What `_execute_scheduled_job` leaves behind: the committed parent
update, the committed execution clone, the id pushed to the Redis queue (if
the enqueue call resolved), and whether the except-branch logged an error. -/
structure SchedResult where
  parentAfter : JobRec
  clone : JobRec
  enqueuedId : Option Str
  errorLogged : Bool
deriving DecidableEq, Repr

/-- `JobScheduler._execute_scheduled_job(job, db)`: update stats and
`next_run_at`, build the MANUAL clone, commit, then call
`self.redis_manager.queue_job(execution_job.id)` — an attribute lookup that
only succeeds if `RedisManager` defines it.  `cronNext` stands for
`croniter(job.schedule, now).get_next()`, `freshId` for `str(uuid.uuid4())`
and `stamp` for `datetime.now().strftime('%Y-%m-%d %H:%M')`. -/
def executeScheduledJob (job : JobRec) (now : Nat) (cronNext : Nat)
    (freshId : Str) (stamp : Str) : SchedResult :=
  let parentAfter := { job with
    lastRunAt := some now, totalRuns := job.totalRuns + 1,
    nextRunAt := some cronNext }
  let clone : JobRec :=
    { id := freshId,
      name := job.name ++ lblDash ++ stamp,
      type := JobType.manual,
      status := JobStatus.queued,
      sourceEndpointId := job.sourceEndpointId,
      sourcePath := job.sourcePath,
      destinationEndpointId := job.destinationEndpointId,
      destinationPath := job.destinationPath,
      filePattern := job.filePattern,
      deleteSourceAfterTransfer := job.deleteSourceAfterTransfer,
      schedule := none,
      isActive := true,
      config := { emptyJobConfig with
                  scheduledJobId := some job.id, scheduledExecution := true },
      parentJobId := none,
      nextRunAt := none, lastRunAt := none, totalRuns := 0 }
  if schedulerEnqueueAttr ∈ redisManagerMethods then
    ⟨parentAfter, clone, some clone.id, false⟩
  else
    ⟨parentAfter, clone, none, true⟩

/-! ## Event monitor chain creation (`EventMonitor._create_chain_jobs`,
event_monitor.py lines 163-195) -/

/-- `EventMonitor._create_chain_jobs(parent_job, chain_templates, db)`: one
CHAINED job per chain entry.  `JobCreate` has no `parent_job_id` field and
the `Job(**chain_job_data.model_dump(), …)` constructor is not passed one,
so the `parent_job_id` column keeps its NULL default; only the config bag
records the parent. -/
def eventCreateChainJobs (parentJob : JobRec) (chainTemplates : List ChainRule)
    (c : Clock) : List JobRec :=
  chainTemplates.enum.map (fun ic =>
    { id := uuidPlaceholder,
      name := parentJob.name ++ lblChain ++ natDigits (ic.1 + 1),
      type := JobType.chained,
      status := JobStatus.pending,
      sourceEndpointId := parentJob.destinationEndpointId,
      sourcePath := parentJob.destinationPath,
      destinationEndpointId := ic.2.endpointId,
      destinationPath := eventApplyPathTemplate ic.2.pathTemplate parentJob.destinationPath c,
      filePattern := parentJob.filePattern,
      deleteSourceAfterTransfer := false,
      schedule := none,
      isActive := true,
      config := { emptyJobConfig with
                  parentJobId := some parentJob.id, chainIndex := some ic.1 },
      parentJobId := none,
      nextRunAt := none, lastRunAt := none, totalRuns := 0 })

/-! ## Queue (`RedisManager.enqueue_job` / `dequeue_job`, redis_manager.py
lines 28-66, over the documented Redis sorted-set semantics) -/

/-- Scores are floats; modelled as rationals. -/
abbrev Score := ℚ

/-- Redis `ZADD key {member: score}`: update the member's score if present,
insert otherwise. -/
def zadd (q : List (Str × Score)) (member : Str) (score : Score) :
    List (Str × Score) :=
  if q.any (fun e => e.1 = member) then
    q.map (fun e => if e.1 = member then (member, score) else e)
  else q ++ [(member, score)]

/-- `RedisManager.enqueue_job(job_id, priority, delay)`: score is the
priority, or `wallclock + delay` when `delay > 0`. -/
def enqueueJob (q : List (Str × Score)) (jobId : Str) (priority : Int)
    (delay : Int) (now : Score) : List (Str × Score) :=
  zadd q jobId (if delay > 0 then now + (delay : ℚ) else (priority : ℚ))

/-- Lexicographic order on member names (Redis tie-break within one score). -/
def strLt : Str → Str → Bool
  | [], [] => false
  | [], _ :: _ => true
  | _ :: _, [] => false
  | a :: as, b :: bs => decide (a < b) || (decide (a = b) && strLt as bs)

/-- Sorted-set order: ascending score, member names breaking ties. -/
def entryLt (a b : Str × Score) : Bool :=
  decide (a.2 < b.2) || (decide (a.2 = b.2) && strLt a.1 b.1)

/-- The first element `ZRANGEBYSCORE key -inf now LIMIT 0 1` returns. -/
def zsetMin (l : List (Str × Score)) : Option (Str × Score) :=
  l.foldl (fun acc e =>
    match acc with
    | none => some e
    | some m => if entryLt e m then some e else some m) none

/-- `RedisManager.dequeue_job()`: the lowest-scored entry whose score is at
most the wall clock, removed (`ZREM`) and returned. -/
def dequeueJob (q : List (Str × Score)) (now : Score) :
    Option Str × List (Str × Score) :=
  match zsetMin (q.filter (fun e => decide (e.2 ≤ now))) with
  | none => (none, q)
  | some m => (some m.1, q.filter (fun e => ¬ e.1 = m.1))

/-! ## Throttle controller (`ThrottleController.acquire_slot`,
throttle_controller.py lines 35-75) -/

/-- Operations `acquire_slot` performs on the endpoint's shared counter. -/
inductive CtrOp where
  | inc | dec
deriving DecidableEq, Repr

/-- `ThrottleController.acquire_slot(endpoint_id, timeout)`.  Each list
element is one iteration of the 1-second retry loop (so the list length is
the number of attempts the timeout window admits): first component the value
`get_endpoint_counter` read, second the value `increment_endpoint_counter`
returned — both may reflect concurrent workers.  Returns the boolean result
together with the counter operations this call itself performed. -/
def acquireOps (limit : Int) : List (Int × Int) → Bool × List CtrOp
  | [] => (false, [])
  | a :: rest =>
    if a.1 < limit then
      if a.2 ≤ limit then (true, [CtrOp.inc])
      else
        let r := acquireOps limit rest
        (r.1, CtrOp.inc :: CtrOp.dec :: r.2)
    else acquireOps limit rest

/-- Net effect of a sequence of counter operations. -/
def netOps (ops : List CtrOp) : Int :=
  ((ops.filter (fun o => o = CtrOp.inc)).length : Int) -
    ((ops.filter (fun o => o = CtrOp.dec)).length : Int)

/-- A counter-operation trace in which every increment is immediately
undone by a decrement. -/
inductive BalancedOps : List CtrOp → Prop
  | nil : BalancedOps []
  | pair {l : List CtrOp} : BalancedOps l →
      BalancedOps (CtrOp.inc :: CtrOp.dec :: l)

/-- Score of a member in the queue model (`None` when absent). -/
def lookupScore (q : List (Str × Score)) (member : Str) : Option Score :=
  (q.find? (fun e => e.1 = member)).map (fun e => e.2)

/-! ## Concrete sample data for witnesses and counterexamples -/

def sampleClock : Clock := ⟨2025, 7, 1, 12, 30, 1751371800⟩
def slashStr : Str := "/".data
def sampleFileName : Str := "a.mp4".data
def sampleSrcDir : Str := "/src".data
def sampleSrcFile : Str := "/src/a.mp4".data
def sampleBadTemplate : Str := "/dst/{basename}".data
def sampleBadDest : Str := "/dst/{basename}/a.mp4".data
def sampleGoodTemplate : Str := "/dst/{year}/{original_filename}".data
def dotMp4 : Str := ".mp4".data
def patStarMp4 : Str := "*.mp4".data
def cronEvery5 : Str := "*/5 * * * *".data
def sampleFreshId : Str := "exec-1".data
def sampleStamp : Str := "2025-07-01 12:30".data
def sampleRulePath : Str := "/backup/{year}/{filename}".data
def sampleDestA : Str := "/dst/2025/a.mp4".data
def sampleDestB : Str := "/dst/2025/b.mp4".data
def sampleJobId : Str := "job-1".data
def sampleJobB : Str := "job-2".data

def sampleChainRule : ChainRule := ⟨"ep-backup".data, sampleRulePath⟩

def sampleParentJob : JobRec :=
  { id := "parent-1".data,
    name := "Parent".data,
    type := JobType.manual,
    status := JobStatus.completed,
    sourceEndpointId := "ep-src".data,
    sourcePath := "/src".data,
    destinationEndpointId := "ep-dst".data,
    destinationPath := "/dst/2025".data,
    filePattern := some patStarMp4,
    deleteSourceAfterTransfer := false,
    schedule := none,
    isActive := true,
    config := { emptyJobConfig with chainRules := some [sampleChainRule] },
    parentJobId := none,
    nextRunAt := none, lastRunAt := none, totalRuns := 1 }

def sampleSchedJob : JobRec :=
  { id := "sched-1".data,
    name := "Nightly".data,
    type := JobType.scheduled,
    status := JobStatus.pending,
    sourceEndpointId := "ep-src".data,
    sourcePath := "/src".data,
    destinationEndpointId := "ep-dst".data,
    destinationPath := "/dst".data,
    filePattern := some patStarMp4,
    deleteSourceAfterTransfer := false,
    schedule := some cronEvery5,
    isActive := true,
    config := emptyJobConfig,
    parentJobId := none,
    nextRunAt := some 900, lastRunAt := none, totalRuns := 3 }

def sampleTransferA : TransferRec :=
  { id := "tr-a".data, fileName := sampleFileName,
    filePath := "/src/a.mp4".data, destinationPath := sampleDestA,
    status := TransferStatus.completed }

def sampleTransferB : TransferRec :=
  { id := "tr-b".data, fileName := "b.mp4".data,
    filePath := "/src/b.mp4".data, destinationPath := sampleDestB,
    status := TransferStatus.completed }

end FileOrbit

/-! # Lemmas -/

namespace FileOrbit

theorem replaceAllF_congr {p v : Str} :
    ∀ (n m : Nat) (s : Str), s.length ≤ n → s.length ≤ m →
      replaceAllF p v n s = replaceAllF p v m s := by
  intro n
  induction n with
  | zero =>
    intro m s h1 _
    have hs : s = [] := List.length_eq_zero.mp (Nat.le_zero.mp h1)
    subst hs
    cases m <;> rfl
  | succ n ih =>
    intro m s h1 h2
    cases s with
    | nil => cases m <;> rfl
    | cons c t =>
      cases m with
      | zero => simp at h2
      | succ m =>
        by_cases hc : p ≠ [] ∧ p.isPrefixOf (c :: t)
        · have hp : 1 ≤ p.length := by
            rcases hc with ⟨hne, _⟩
            cases p with
            | nil => simp at hne
            | cons a as => simp
          have hd : ((c :: t).drop p.length).length ≤ t.length := by
            simp only [List.length_drop, List.length_cons]
            omega
          simp only [replaceAllF, if_pos hc]
          rw [ih m ((c :: t).drop p.length)
                (by simp only [List.length_cons] at h1; omega)
                (by simp only [List.length_cons] at h2; omega)]
        · simp only [replaceAllF, if_neg hc]
          rw [ih m t
                (by simp only [List.length_cons] at h1; omega)
                (by simp only [List.length_cons] at h2; omega)]

theorem replaceAll_nil (p v : Str) : replaceAll p v [] = [] := rfl

theorem replaceAll_cons_pos {p : Str} (v : Str) {c : Char} {s : Str}
    (h1 : p ≠ []) (h2 : p.isPrefixOf (c :: s)) :
    replaceAll p v (c :: s) = v ++ replaceAll p v ((c :: s).drop p.length) := by
  have hp : 1 ≤ p.length := by
    cases p with
    | nil => simp at h1
    | cons a as => simp
  unfold replaceAll
  simp only [List.length_cons, replaceAllF, if_pos (And.intro h1 h2)]
  rw [replaceAllF_congr s.length ((c :: s).drop p.length).length]
  · simp only [List.length_drop, List.length_cons]; omega
  · exact Nat.le_refl _

theorem replaceAll_cons_neg {p : Str} (v : Str) {c : Char} {s : Str}
    (h : ¬ (p ≠ [] ∧ p.isPrefixOf (c :: s))) :
    replaceAll p v (c :: s) = c :: replaceAll p v s := by
  unfold replaceAll
  simp only [List.length_cons, replaceAllF, if_neg h]

theorem isPrefixOf_append_self (p r : Str) : p.isPrefixOf (p ++ r) = true := by
  induction p with
  | nil => simp [List.isPrefixOf]
  | cons a as ih => simp [List.isPrefixOf, ih]

theorem replaceAll_append_left {p : Str} (v r : Str) (h : p ≠ []) :
    replaceAll p v (p ++ r) = v ++ replaceAll p v r := by
  cases p with
  | nil => simp at h
  | cons a as =>
    rw [List.cons_append,
        replaceAll_cons_pos v h (by
          rw [← List.cons_append]; exact isPrefixOf_append_self _ r),
        ← List.cons_append, List.drop_left]

theorem replaceAll_self {p : Str} (v : Str) (h : p ≠ []) :
    replaceAll p v p = v := by
  have h2 := replaceAll_append_left v [] h
  rw [List.append_nil] at h2
  rw [h2]
  simp [replaceAll, replaceAllF]

theorem occursB_false_head {p : Str} {c : Char} {s : Str}
    (h : occursB p (c :: s) = false) :
    p.isPrefixOf (c :: s) = false ∧ occursB p s = false := by
  simp only [occursB, Bool.or_eq_false_iff] at h
  exact h

theorem replaceAll_no_occur {p : Str} (v : Str) {s : Str}
    (h : occursB p s = false) : replaceAll p v s = s := by
  induction s with
  | nil => rfl
  | cons c t ih =>
    have hh := occursB_false_head h
    have hnc : ¬ (p ≠ [] ∧ p.isPrefixOf (c :: t)) := by
      rintro ⟨-, hpre⟩
      rw [hh.1] at hpre
      exact Bool.false_ne_true hpre
    rw [replaceAll_cons_neg v hnc, ih hh.2]

theorem replaceAll_no_open {p : Str} (v : Str) {s : Str}
    (hp : p.head? = some '{') (hs : '{' ∉ s) : replaceAll p v s = s := by
  induction s with
  | nil => rfl
  | cons c t ih =>
    have hc : c ≠ '{' := fun h => hs (h ▸ List.mem_cons_self c t)
    have ht : '{' ∉ t := fun h => hs (List.mem_cons_of_mem c h)
    have hnc : ¬ (p ≠ [] ∧ p.isPrefixOf (c :: t)) := by
      rintro ⟨hne, hpre⟩
      cases p with
      | nil => exact hne rfl
      | cons a as =>
        simp only [List.head?_cons, Option.some.injEq] at hp
        simp only [List.isPrefixOf, Bool.and_eq_true, beq_iff_eq] at hpre
        exact hc (by rw [← hpre.1, hp])
    rw [replaceAll_cons_neg v hnc, ih ht]

theorem applyPasses_nil (s : Str) : applyPasses [] s = s := rfl

theorem applyPasses_cons (p v : Str) (ps : List (Str × Str)) (s : Str) :
    applyPasses ((p, v) :: ps) s = applyPasses ps (replaceAll p v s) := rfl

theorem applyPasses_skip {p s : Str} (v : Str) (ps : List (Str × Str))
    (h : occursB p s = false) :
    applyPasses ((p, v) :: ps) s = applyPasses ps s := by
  rw [applyPasses_cons, replaceAll_no_occur v h]

theorem applyPasses_hit {p : Str} (v : Str) (ps : List (Str × Str))
    (h : p ≠ []) :
    applyPasses ((p, v) :: ps) p = applyPasses ps v := by
  rw [applyPasses_cons, replaceAll_self v h]

theorem applyPasses_no_open {ps : List (Str × Str)} {s : Str}
    (hps : ∀ pv ∈ ps, (pv : Str × Str).1.head? = some '{')
    (hs : '{' ∉ s) : applyPasses ps s = s := by
  induction ps with
  | nil => rfl
  | cons pv rest ih =>
    rw [show pv = (pv.1, pv.2) from rfl, applyPasses_cons,
        replaceAll_no_open pv.2 (hps pv (List.mem_cons_self _ _)) hs]
    exact ih (fun q hq => hps q (List.mem_cons_of_mem _ hq))

theorem braceFree_subset {s t : Str} (hsub : s ⊆ t) (h : braceFree t) :
    braceFree s :=
  ⟨fun hm => h.1 (hsub hm), fun hm => h.2 (hsub hm)⟩

theorem osBasename_subset (p : Str) : osBasename p ⊆ p := by
  intro x hx
  unfold osBasename at hx
  rw [List.mem_reverse] at hx
  exact List.mem_reverse.mp ((List.takeWhile_sublist _).subset hx)

theorem splitextName_fst_subset (n : Str) : (splitextName n).1 ⊆ n := by
  simp only [splitextName]
  split
  · exact fun x h => h
  · split
    · exact fun x h => h
    · exact List.take_subset _ _

theorem splitextName_snd_subset (n : Str) : (splitextName n).2 ⊆ n := by
  simp only [splitextName]
  split
  · exact fun x h => (List.not_mem_nil x h).elim
  · split
    · exact fun x h => (List.not_mem_nil x h).elim
    · exact List.drop_subset _ _

theorem digitChar_mem (k : Nat) : digitChar k ∈ decDigits := by
  match k with
  | 0 | 1 | 2 | 3 | 4 | 5 | 6 | 7 | 8 => decide
  | n + 9 => exact (by decide : ('9' : Char) ∈ decDigits)

theorem natDigitsF_subset (f n : Nat) : natDigitsF f n ⊆ decDigits := by
  induction f generalizing n with
  | zero => exact fun x hx => (List.not_mem_nil x hx).elim
  | succ f ih =>
    rw [natDigitsF]
    by_cases h : n < 10
    · simp only [if_pos h]
      intro x hx
      simp only [List.mem_singleton] at hx
      subst hx
      exact digitChar_mem n
    · simp only [if_neg h]
      intro x hx
      rcases List.mem_append.mp hx with h1 | h2
      · exact ih (n / 10) h1
      · simp only [List.mem_singleton] at h2
        subst h2
        exact digitChar_mem _

theorem natDigits_subset (n : Nat) : natDigits n ⊆ decDigits :=
  natDigitsF_subset (n + 1) n

theorem braceFree_of_digits {s : Str} (h : s ⊆ decDigits) : braceFree s := by
  constructor
  · intro hm
    have hd := h hm
    revert hd
    decide
  · intro hm
    have hd := h hm
    revert hd
    decide

theorem braceFree_natDigits (n : Nat) : braceFree (natDigits n) :=
  braceFree_of_digits (natDigits_subset n)

theorem braceFree_format02 (n : Nat) : braceFree (format02 n) := by
  unfold format02
  split
  · refine braceFree_of_digits ?_
    intro x hx
    rcases List.mem_cons.mp hx with h1 | h2
    · subst h1; decide
    · exact natDigits_subset n h2
  · exact braceFree_natDigits n

theorem applyPasses_token {ps : List (Str × Str)} {tok : Str}
    (hheads : ∀ pv ∈ ps, (pv : Str × Str).1.head? = some '{')
    (hvals : ∀ pv ∈ ps, '{' ∉ (pv : Str × Str).2)
    (hskip : ∀ pv ∈ ps, (pv : Str × Str).1 = tok ∨ occursB pv.1 tok = false)
    (htok : tok ≠ []) :
    applyPasses ps tok =
      ((ps.find? (fun pv => pv.1 = tok)).map (fun pv => pv.2)).getD tok := by
  induction ps with
  | nil => rfl
  | cons pv rest ih =>
    rcases hskip pv (List.mem_cons_self _ _) with he | hno
    · rw [show pv = (pv.1, pv.2) from rfl, he, applyPasses_hit _ _ htok,
          applyPasses_no_open
            (fun q hq => hheads q (List.mem_cons_of_mem _ hq))
            (hvals pv (List.mem_cons_self _ _))]
      rw [List.find?_cons_of_pos _ (by simp [he])]
      rfl
    · have hne : pv.1 ≠ tok := by
        intro he
        rw [he] at hno
        cases tok with
        | nil => exact htok rfl
        | cons a t =>
          have : (a :: t).isPrefixOf (a :: t) = true := by
            have h2 := isPrefixOf_append_self (a :: t) []
            rwa [List.append_nil] at h2
          simp [occursB, this] at hno
      rw [show pv = (pv.1, pv.2) from rfl, applyPasses_skip _ _ hno,
          List.find?_cons_of_neg _ (by simp [hne])]
      exact ih (fun q hq => hheads q (List.mem_cons_of_mem _ hq))
        (fun q hq => hvals q (List.mem_cons_of_mem _ hq))
        (fun q hq => hskip q (List.mem_cons_of_mem _ hq))

theorem workerPasses_heads (f : Str) (c : Clock) :
    ∀ pv ∈ workerPasses f c, (pv : Str × Str).1.head? = some '{' := by
  intro pv hpv
  simp only [workerPasses, List.mem_cons, List.not_mem_nil, or_false] at hpv
  rcases hpv with rfl | rfl | rfl | rfl | rfl | rfl | rfl | rfl | rfl | rfl <;>
    dsimp only <;> decide

theorem chainPasses_heads (f : Str) (c : Clock) :
    ∀ pv ∈ chainPasses f c, (pv : Str × Str).1.head? = some '{' := by
  intro pv hpv
  simp only [chainPasses, List.mem_cons, List.not_mem_nil, or_false] at hpv
  rcases hpv with rfl | rfl | rfl | rfl | rfl | rfl <;> dsimp only <;> decide

theorem workerPasses_vals {f : Str} (c : Clock) (hf : braceFree f) :
    ∀ pv ∈ workerPasses f c, '{' ∉ (pv : Str × Str).2 := by
  have hfn : braceFree (osBasename f) := braceFree_subset (osBasename_subset f) hf
  have h1 : braceFree (splitextName (osBasename f)).1 :=
    braceFree_subset (splitextName_fst_subset _) hfn
  have h2 : braceFree (splitextName (osBasename f)).2 :=
    braceFree_subset (splitextName_snd_subset _) hfn
  intro pv hpv
  simp only [workerPasses, List.mem_cons, List.not_mem_nil, or_false] at hpv
  rcases hpv with rfl | rfl | rfl | rfl | rfl | rfl | rfl | rfl | rfl | rfl
  · exact hfn.1
  · exact hfn.1
  · exact h1.1
  · exact h2.1
  · exact (braceFree_natDigits _).1
  · exact (braceFree_format02 _).1
  · exact (braceFree_format02 _).1
  · exact (braceFree_format02 _).1
  · exact (braceFree_format02 _).1
  · exact (braceFree_natDigits _).1

theorem chainPasses_vals {f : Str} (c : Clock) (hf : braceFree f) :
    ∀ pv ∈ chainPasses f c, '{' ∉ (pv : Str × Str).2 := by
  have hfn : braceFree (osBasename f) := braceFree_subset (osBasename_subset f) hf
  have h1 : braceFree (splitextName (osBasename f)).1 :=
    braceFree_subset (splitextName_fst_subset _) hfn
  have h2 : braceFree ((splitextName (osBasename f)).2.dropWhile (· = '.')) :=
    braceFree_subset
      (List.Subset.trans ((List.dropWhile_sublist _).subset) (splitextName_snd_subset _))
      hfn
  intro pv hpv
  simp only [chainPasses, List.mem_cons, List.not_mem_nil, or_false] at hpv
  rcases hpv with rfl | rfl | rfl | rfl | rfl | rfl
  · exact (braceFree_natDigits _).1
  · exact (braceFree_format02 _).1
  · exact (braceFree_format02 _).1
  · exact hfn.1
  · exact h1.1
  · exact h2.1

theorem enum_snd_mem {α : Type _} {l : List α} {p : Nat × α}
    (h : p ∈ l.enum) : p.2 ∈ l := by
  obtain ⟨i, a⟩ := p
  rw [List.enum_eq_zip_range] at h
  exact (List.of_mem_zip h).2

theorem createPerFileChainJobs_length (parent : JobRec) (rules : List ChainRule)
    (transfers : List TransferRec) (c : Clock) :
    (createPerFileChainJobs parent rules transfers c).length =
      transfers.length * rules.length := by
  induction transfers with
  | nil => simp [createPerFileChainJobs]
  | cons t ts ih =>
    simp only [createPerFileChainJobs, List.flatMap_cons, List.length_append,
      List.length_map, List.enum_length, List.length_cons] at ih ⊢
    rw [ih, Nat.succ_mul]
    exact Nat.add_comm _ _

theorem mem_createPerFileChainJobs {parent : JobRec} {rules : List ChainRule}
    {transfers : List TransferRec} {c : Clock} {j : JobRec}
    (h : j ∈ createPerFileChainJobs parent rules transfers c) :
    ∃ tr ∈ transfers, ∃ rule ∈ rules, ∃ idx,
      j = mkPerFileChainJob parent tr idx rule c := by
  simp only [createPerFileChainJobs, List.mem_flatMap, List.mem_map] at h
  obtain ⟨tr, htr, ir, hir, hj⟩ := h
  exact ⟨tr, htr, ir.2, enum_snd_mem hir, ir.1, hj.symm⟩

theorem createChainJobs_fields {parent : JobRec} {rules : List ChainRule}
    {perFile : Option (List TransferRec)} {c : Clock} {j : JobRec}
    (h : j ∈ createChainJobs parent rules perFile c) :
    j.type = JobType.chained ∧ j.parentJobId = some parent.id ∧
      j.status = JobStatus.pending := by
  unfold createChainJobs at h
  by_cases hr : rules = []
  · rw [if_pos hr] at h
    exact absurd h (List.not_mem_nil j)
  · rw [if_neg hr] at h
    rcases perFile with _ | tlist
    · simp only [legacyChainJobs, List.mem_map] at h
      obtain ⟨ir, _, hj⟩ := h
      exact hj ▸ ⟨rfl, rfl, rfl⟩
    · rcases tlist with _ | ⟨t, ts⟩
      · simp only [legacyChainJobs, List.mem_map] at h
        obtain ⟨ir, _, hj⟩ := h
        exact hj ▸ ⟨rfl, rfl, rfl⟩
      · obtain ⟨tr, _, rule, _, idx, rfl⟩ := mem_createPerFileChainJobs h
        exact ⟨rfl, rfl, rfl⟩

theorem netOps_nil : netOps [] = 0 := rfl

theorem netOps_inc : netOps [CtrOp.inc] = 1 := rfl

theorem netOps_cons2 (l : List CtrOp) :
    netOps (CtrOp.inc :: CtrOp.dec :: l) = netOps l := by
  simp only [netOps, List.filter_cons]
  norm_num [if_neg (by decide : ¬ (CtrOp.dec = CtrOp.inc)),
    if_neg (by decide : ¬ (CtrOp.inc = CtrOp.dec))]

theorem find?_update (q : List (Str × Score)) (jobId : Str) (s : Score)
    (h : q.any (fun e => e.1 = jobId) = true) :
    (q.map (fun e => if e.1 = jobId then (jobId, s) else e)).find?
        (fun e => e.1 = jobId) = some (jobId, s) := by
  induction q with
  | nil => simp at h
  | cons e t ih =>
    by_cases he : e.1 = jobId
    · simp [he]
    · have ht : t.any (fun e => e.1 = jobId) = true := by
        simpa [List.any_cons, he] using h
      simpa [he] using ih ht

theorem find?_append_last (q : List (Str × Score)) (jobId : Str) (s : Score)
    (h : q.any (fun e => e.1 = jobId) = false) :
    (q ++ [(jobId, s)]).find? (fun e => e.1 = jobId) = some (jobId, s) := by
  induction q with
  | nil => simp
  | cons e t ih =>
    have he : ¬ (e.1 = jobId) := by
      intro hc
      simp [List.any_cons, hc] at h
    have ht : t.any (fun e => e.1 = jobId) = false := by
      simpa [List.any_cons, he] using h
    simpa [he] using ih ht

theorem zadd_lookup (q : List (Str × Score)) (jobId : Str) (s : Score) :
    lookupScore (zadd q jobId s) jobId = some s := by
  unfold zadd lookupScore
  by_cases h : q.any (fun e => e.1 = jobId)
  · rw [if_pos h, find?_update q jobId s h]
    rfl
  · rw [if_neg h, find?_append_last q jobId s (Bool.of_not_eq_true h)]
    rfl

theorem countP_update (q : List (Str × Score)) (jobId : Str) (s : Score) :
    (q.map (fun e => if e.1 = jobId then (jobId, s) else e)).countP
        (fun e => e.1 = jobId) = q.countP (fun e => e.1 = jobId) := by
  induction q with
  | nil => rfl
  | cons e t ih =>
    by_cases he : e.1 = jobId
    · simp [List.countP_cons, he, ih]
    · simp [List.countP_cons, he, ih]

theorem zadd_countP (q : List (Str × Score)) (jobId : Str) (s : Score)
    (h : q.countP (fun e => e.1 = jobId) ≤ 1) :
    (zadd q jobId s).countP (fun e => e.1 = jobId) = 1 := by
  unfold zadd
  by_cases ha : q.any (fun e => e.1 = jobId)
  · rw [if_pos ha, countP_update]
    have hpos : 0 < q.countP (fun e => e.1 = jobId) := by
      rw [List.countP_pos_iff]
      obtain ⟨e, he, hp⟩ := List.any_eq_true.mp ha
      exact ⟨e, he, hp⟩
    omega
  · have hz : q.countP (fun e => e.1 = jobId) = 0 := by
      rw [List.countP_eq_zero]
      intro e he hp
      exact ha (List.any_eq_true.mpr ⟨e, he, hp⟩)
    rw [if_neg ha, List.countP_append, hz]
    simp

/-! # Claim theorems -/

/-- Claim C1 (code-bug evaluation).  The claim states that a Transfer whose
status has ever been IN_PROGRESS has a non-null `destination_path`,
committed before the copy subprocess starts, with no unresolved template
token among the twelve.  Evaluating `_execute_transfer` on a job whose
destination template is `/dst/{basename}` (a token the template docs allow)
with file `a.mp4` on local endpoints: the status is committed IN_PROGRESS
and the destination path is committed before the copy starts, but the
committed path `/dst/{basename}/a.mp4` still contains `{basename}` — the
worker's guard checks only six tokens and its expander never substitutes
`{basename}`/`{extension}`. -/
theorem c1_destination_path_token_survives :
    executeTransferStart (EndpointCfg.localFs slashStr) (EndpointCfg.localFs slashStr)
        sampleSrcDir sampleBadTemplate sampleSrcFile sampleFileName sampleClock =
      [TransferEv.statusCommitted TransferStatus.inProgress,
       TransferEv.destPathCommitted sampleBadDest,
       TransferEv.copyStarted sampleSrcFile sampleBadTemplate] ∧
    occursB tokBasename sampleBadDest = true := by
  decide

/-- Claim C2: a COMPLETED parent job with non-empty `chain_rules` and a
non-empty list of COMPLETED transfers yields exactly
`|chain_rules| x |completed transfers|` chain jobs, each with the
`parent_job_id` column equal to the parent's id. -/
theorem c2_chain_job_count (parent : JobRec) (rules : List ChainRule)
    (transfers : List TransferRec) (c : Clock)
    (_hparent : parent.status = JobStatus.completed)
    (hrules : rules ≠ [])
    (htr : transfers ≠ [])
    (_hcompleted : ∀ t ∈ transfers, t.status = TransferStatus.completed) :
    (createChainJobs parent rules (some transfers) c).length =
      rules.length * transfers.length ∧
    ∀ j ∈ createChainJobs parent rules (some transfers) c,
      j.parentJobId = some parent.id := by
  obtain ⟨t, ts, rfl⟩ : ∃ t ts, transfers = t :: ts := by
    cases transfers with
    | nil => exact absurd rfl htr
    | cons t ts => exact ⟨t, ts, rfl⟩
  have hcc : createChainJobs parent rules (some (t :: ts)) c =
      createPerFileChainJobs parent rules (t :: ts) c := by
    unfold createChainJobs
    rw [if_neg hrules]
  rw [hcc]
  constructor
  · rw [createPerFileChainJobs_length, Nat.mul_comm]
  · intro j hj
    obtain ⟨tr, _, rule, _, idx, rfl⟩ := mem_createPerFileChainJobs hj
    rfl

/-- Witness for C2 at the spec's S1 scenario: one chain rule, two completed
transfers, giving 1 x 2 chain jobs carrying the parent's id. -/
theorem c2_chain_job_count_witness :
    (createChainJobs sampleParentJob [sampleChainRule]
        (some [sampleTransferA, sampleTransferB]) sampleClock).length =
      [sampleChainRule].length * [sampleTransferA, sampleTransferB].length ∧
    ∀ j ∈ createChainJobs sampleParentJob [sampleChainRule]
        (some [sampleTransferA, sampleTransferB]) sampleClock,
      j.parentJobId = some sampleParentJob.id :=
  c2_chain_job_count sampleParentJob [sampleChainRule]
    [sampleTransferA, sampleTransferB] sampleClock
    (by decide) (by decide) (by decide) (by decide)

/-- Claim C3: every job the per-file chain generator emits is built from the
transfer's resolved `destination_path`: the remote prefix up to the first
colon is stripped, `source_path` is the directory part and `file_pattern`
the filename part of the stripped path, the destination comes from the
chain rule's template expanded against the stripped path,
`delete_source_after_transfer` is false, and the initial status is
PENDING. -/
theorem c3_per_file_chain_construction (parent : JobRec)
    (rules : List ChainRule) (transfers : List TransferRec) (c : Clock) :
    ∀ j ∈ createPerFileChainJobs parent rules transfers c,
      ∃ tr ∈ transfers, ∃ rule ∈ rules,
        j.sourcePath = (if '/' ∈ stripRemoteColon tr.destinationPath then
                          osDirname (stripRemoteColon tr.destinationPath)
                        else []) ∧
        j.filePattern = some (osBasename (stripRemoteColon tr.destinationPath)) ∧
        j.destinationEndpointId = rule.endpointId ∧
        j.destinationPath =
          chainApplyPathTemplate rule.pathTemplate
            (stripRemoteColon tr.destinationPath) c ∧
        j.deleteSourceAfterTransfer = false ∧
        j.status = JobStatus.pending := by
  intro j hj
  obtain ⟨tr, htr, rule, hrule, idx, rfl⟩ := mem_createPerFileChainJobs hj
  exact ⟨tr, htr, rule, hrule, rfl, rfl, rfl, rfl, rfl, rfl⟩

/-- Witness for C3 on the S1 scenario data: the first generated job. -/
theorem c3_per_file_chain_construction_witness :
    ∃ tr ∈ [sampleTransferA, sampleTransferB], ∃ rule ∈ [sampleChainRule],
      (mkPerFileChainJob sampleParentJob sampleTransferA 0 sampleChainRule
          sampleClock).sourcePath =
        (if '/' ∈ stripRemoteColon tr.destinationPath then
           osDirname (stripRemoteColon tr.destinationPath)
         else []) ∧
      (mkPerFileChainJob sampleParentJob sampleTransferA 0 sampleChainRule
          sampleClock).filePattern =
        some (osBasename (stripRemoteColon tr.destinationPath)) ∧
      (mkPerFileChainJob sampleParentJob sampleTransferA 0 sampleChainRule
          sampleClock).destinationEndpointId = rule.endpointId ∧
      (mkPerFileChainJob sampleParentJob sampleTransferA 0 sampleChainRule
          sampleClock).destinationPath =
        chainApplyPathTemplate rule.pathTemplate
          (stripRemoteColon tr.destinationPath) sampleClock ∧
      (mkPerFileChainJob sampleParentJob sampleTransferA 0 sampleChainRule
          sampleClock).deleteSourceAfterTransfer = false ∧
      (mkPerFileChainJob sampleParentJob sampleTransferA 0 sampleChainRule
          sampleClock).status = JobStatus.pending :=
  c3_per_file_chain_construction sampleParentJob [sampleChainRule]
    [sampleTransferA, sampleTransferB] sampleClock
    (mkPerFileChainJob sampleParentJob sampleTransferA 0 sampleChainRule sampleClock)
    (by decide)

/-- Claim C5 (code-bug evaluation).  The claim states the scheduler writes
back the next cron occurrence, creates a MANUAL clone with status QUEUED and
the `scheduled_execution` / `scheduled_job_id` config markers, and enqueues
the clone.  Evaluating `_execute_scheduled_job` on a due scheduled job: the
`next_run_at` write-back and the clone are committed as claimed, but the
clone is never placed on the Redis queue — the scheduler calls
`self.redis_manager.queue_job(...)` and `RedisManager` defines no `queue_job`
method (only `enqueue_job`), so the call raises `AttributeError`, caught and
logged by the except branch after the commit. -/
theorem c5_scheduler_clone_not_enqueued :
    (executeScheduledJob sampleSchedJob 1000 1300 sampleFreshId sampleStamp).parentAfter.nextRunAt
        = some 1300 ∧
    (executeScheduledJob sampleSchedJob 1000 1300 sampleFreshId sampleStamp).clone.type
        = JobType.manual ∧
    (executeScheduledJob sampleSchedJob 1000 1300 sampleFreshId sampleStamp).clone.status
        = JobStatus.queued ∧
    (executeScheduledJob sampleSchedJob 1000 1300 sampleFreshId sampleStamp).clone.id
        = sampleFreshId ∧
    (executeScheduledJob sampleSchedJob 1000 1300 sampleFreshId sampleStamp).clone.config.scheduledExecution
        = true ∧
    (executeScheduledJob sampleSchedJob 1000 1300 sampleFreshId sampleStamp).clone.config.scheduledJobId
        = some sampleSchedJob.id ∧
    (executeScheduledJob sampleSchedJob 1000 1300 sampleFreshId sampleStamp).enqueuedId
        = none ∧
    (executeScheduledJob sampleSchedJob 1000 1300 sampleFreshId sampleStamp).errorLogged
        = true ∧
    schedulerEnqueueAttr ∉ redisManagerMethods := by
  decide

/-- Claim C6 (code-bug evaluation).  The claim states every CHAINED job has
a non-null `parent_job_id` column on all creation paths.  Evaluating the
event monitor's `_create_chain_jobs` on a parent job and one chain entry:
the created job is CHAINED with `parent_job_id = NULL` — only the config bag
records the parent, so the worker's
`Job.parent_job_id == parent_job.id` query can never pick the job up,
contradicting the source's own comment that it
will be queued after the parent completes. -/
theorem c6_event_chain_null_parent_column :
    ((eventCreateChainJobs sampleParentJob [sampleChainRule] sampleClock).map
        (fun j => (j.type, j.status, j.parentJobId, j.config.parentJobId))) =
      [(JobType.chained, JobStatus.pending, (none : Option Str),
        some sampleParentJob.id)] := by
  decide

theorem createdChainJobsOf_eq {job : JobRec} {rules : List ChainRule}
    (t : TransferRec) (ts : List TransferRec) (c : Clock)
    (hrules : job.config.chainRules = some rules) :
    createdChainJobsOf job (t :: ts) c =
      createChainJobs job rules (some (t :: ts)) c := by
  unfold createdChainJobsOf
  rw [hrules]

/-- Claim C4: after the worker executes a job's transfers, an all-success
run completes the job, creates the per-file chain jobs from the successful
transfers and the config's `chain_rules`, and flips each created chain job
from PENDING to QUEUED and enqueues it; a run with at least one failure
fails the job and spawns or enqueues nothing. -/
theorem c4_job_summary_chain_dispatch (job : JobRec)
    (outcomes : List TransferOutcome) (preExisting : List JobRec) (c : Clock)
    (rules : List ChainRule)
    (hrules : job.config.chainRules = some rules)
    (hne : outcomes ≠ []) :
    ((∀ o ∈ outcomes, o.success = true) →
      (executeJobSummary job outcomes preExisting c).status = JobStatus.completed ∧
      (executeJobSummary job outcomes preExisting c).created =
        createChainJobs job rules (some (outcomes.map (fun o => o.row))) c ∧
      (∀ j ∈ (executeJobSummary job outcomes preExisting c).created,
        j.status = JobStatus.pending ∧
        { j with status := JobStatus.queued } ∈
          (executeJobSummary job outcomes preExisting c).enqueued)) ∧
    ((∃ o ∈ outcomes, o.success = false) →
      executeJobSummary job outcomes preExisting c =
        { status := JobStatus.failed, created := [], enqueued := [] }) := by
  constructor
  · intro hall
    have hfilter : outcomes.filter (fun o => o.success) = outcomes :=
      List.filter_eq_self.mpr (fun a ha => hall a ha)
    have hsucc : successfulOf outcomes = outcomes.map (fun o => o.row) := by
      unfold successfulOf
      rw [hfilter]
    have hlen : (successfulOf outcomes).length = outcomes.length := by
      rw [hsucc, List.length_map]
    have hexec : executeJobSummary job outcomes preExisting c =
        { status := JobStatus.completed,
          created := (processChainJobs job (successfulOf outcomes) preExisting c).1,
          enqueued := (processChainJobs job (successfulOf outcomes) preExisting c).2 } := by
      unfold executeJobSummary
      rw [if_pos hlen]
    obtain ⟨o, os, rfl⟩ : ∃ o os, outcomes = o :: os := by
      cases outcomes with
      | nil => exact absurd rfl hne
      | cons o os => exact ⟨o, os, rfl⟩
    have hcreated : createdChainJobsOf job (successfulOf (o :: os)) c =
        createChainJobs job rules (some ((o :: os).map (fun o => o.row))) c := by
      rw [hsucc, List.map_cons, createdChainJobsOf_eq _ _ _ hrules]
    rw [hexec]
    refine ⟨rfl, hcreated, ?_⟩
    intro j hj
    have hj1 : j ∈ createdChainJobsOf job (successfulOf (o :: os)) c := hj
    have hj2 : j ∈ createChainJobs job rules
        (some ((o :: os).map (fun o => o.row))) c := hcreated ▸ hj1
    obtain ⟨hty, hpid, hst⟩ := createChainJobs_fields hj2
    refine ⟨hst, ?_⟩
    apply List.mem_map_of_mem
    apply List.mem_filter.mpr
    refine ⟨List.mem_append_right _ hj1, ?_⟩
    simp [hty, hpid, hst]
  · rintro ⟨o, ho, hfail⟩
    have hnall : ¬ outcomes.filter (fun o => o.success) = outcomes := by
      intro heq
      have hto := List.filter_eq_self.mp heq o ho
      rw [hfail] at hto
      exact Bool.false_ne_true hto
    have hlt : ¬ (successfulOf outcomes).length = outcomes.length := by
      intro heq
      unfold successfulOf at heq
      rw [List.length_map] at heq
      exact hnall ((List.filter_sublist _).eq_of_length heq)
    unfold executeJobSummary
    rw [if_neg hlt]

/-- Witness for C4: the S1/S2 pair — an all-success run creates and queues
the chain jobs; the same job with one failed transfer is FAILED with no
chain jobs. -/
theorem c4_job_summary_chain_dispatch_witness :
    ((∀ o ∈ [TransferOutcome.mk sampleTransferA true,
             TransferOutcome.mk sampleTransferB true], o.success = true) →
      (executeJobSummary sampleParentJob
          [TransferOutcome.mk sampleTransferA true,
           TransferOutcome.mk sampleTransferB true] [] sampleClock).status =
        JobStatus.completed ∧
      (executeJobSummary sampleParentJob
          [TransferOutcome.mk sampleTransferA true,
           TransferOutcome.mk sampleTransferB true] [] sampleClock).created =
        createChainJobs sampleParentJob [sampleChainRule]
          (some ([TransferOutcome.mk sampleTransferA true,
                  TransferOutcome.mk sampleTransferB true].map (fun o => o.row)))
          sampleClock ∧
      (∀ j ∈ (executeJobSummary sampleParentJob
          [TransferOutcome.mk sampleTransferA true,
           TransferOutcome.mk sampleTransferB true] [] sampleClock).created,
        j.status = JobStatus.pending ∧
        { j with status := JobStatus.queued } ∈
          (executeJobSummary sampleParentJob
            [TransferOutcome.mk sampleTransferA true,
             TransferOutcome.mk sampleTransferB true] [] sampleClock).enqueued)) ∧
    ((∃ o ∈ [TransferOutcome.mk sampleTransferA true,
             TransferOutcome.mk sampleTransferB true], o.success = false) →
      executeJobSummary sampleParentJob
          [TransferOutcome.mk sampleTransferA true,
           TransferOutcome.mk sampleTransferB true] [] sampleClock =
        { status := JobStatus.failed, created := [], enqueued := [] }) :=
  c4_job_summary_chain_dispatch sampleParentJob
    [TransferOutcome.mk sampleTransferA true, TransferOutcome.mk sampleTransferB true]
    [] sampleClock [sampleChainRule] (by decide) (by decide)

/-- Claim C10: the destination path written to the Transfer row always ends
in `/` followed by the transfer's file name; when the template has none of
the recognized (guard) variables the unexpanded `destination_path` is the
base, and when the expansion ends in the file name its parent directory is
the base. -/
theorem c10_destination_ends_with_filename (destCfg : EndpointCfg)
    (tmpl fileName : Str) (c : Clock) :
    (∃ d, resolveDestPath destCfg tmpl fileName c = d ++ '/' :: fileName) ∧
    (workerGuardVars.any (fun v => occursB v tmpl) = false →
      resolveDestPath destCfg tmpl fileName c =
        buildRemotePath destCfg destRemoteName tmpl [] ++ '/' :: fileName) ∧
    (workerGuardVars.any (fun v => occursB v tmpl) = true →
      pathName (workerApplyPathTemplate tmpl fileName c) = fileName →
      resolveDestPath destCfg tmpl fileName c =
        buildRemotePath destCfg destRemoteName
            (pathParentStr (workerApplyPathTemplate tmpl fileName c)) [] ++
          '/' :: fileName) := by
  refine ⟨⟨resolveDestBase destCfg tmpl fileName c, rfl⟩, ?_, ?_⟩
  · intro hg
    unfold resolveDestPath resolveDestBase
    rw [hg]
    simp only [Bool.false_eq_true, if_false]
  · intro hg hname
    unfold resolveDestPath resolveDestBase
    rw [hg]
    simp only [if_true, if_pos hname]

/-- Witness for C10: the S1 template `/dst/{year}/{original_filename}` with
file `a.mp4` triggers the guard, the expansion ends in the file name, and
the parent directory becomes the base. -/
theorem c10_destination_ends_with_filename_witness :
    workerGuardVars.any (fun v => occursB v sampleGoodTemplate) = true ∧
    pathName (workerApplyPathTemplate sampleGoodTemplate sampleFileName sampleClock) =
      sampleFileName ∧
    resolveDestPath (EndpointCfg.localFs slashStr) sampleGoodTemplate sampleFileName
        sampleClock =
      buildRemotePath (EndpointCfg.localFs slashStr) destRemoteName
          (pathParentStr (workerApplyPathTemplate sampleGoodTemplate sampleFileName
            sampleClock)) [] ++
        '/' :: sampleFileName :=
  ⟨by decide, by decide,
    (c10_destination_ends_with_filename (EndpointCfg.localFs slashStr)
      sampleGoodTemplate sampleFileName sampleClock).2.2 (by decide) (by decide)⟩

/-- Claim C8: queue round trip.  Enqueueing with priority 0 and delay 0
stores score 0, with delay `d > 0` score `wallclock + d`; when the enqueued
entry is the only due entry, the next dequeue returns exactly that job id
and removes it; re-enqueueing an id already stored at most once leaves a
single entry (score updated, no duplicate). -/
theorem c8_queue_roundtrip (q : List (Str × Score)) (jobId : Str)
    (now s : Score) (d : Int)
    (hd : 0 < d)
    (honly : (enqueueJob q jobId 0 0 now).filter (fun e => decide (e.2 ≤ now)) =
      [(jobId, s)])
    (hcount : q.countP (fun e => e.1 = jobId) ≤ 1) :
    lookupScore (enqueueJob q jobId 0 0 now) jobId = some 0 ∧
    lookupScore (enqueueJob q jobId 0 d now) jobId = some (now + (d : ℚ)) ∧
    (dequeueJob (enqueueJob q jobId 0 0 now) now).1 = some jobId ∧
    (∀ e ∈ (dequeueJob (enqueueJob q jobId 0 0 now) now).2, e.1 ≠ jobId) ∧
    (enqueueJob q jobId 0 0 now).countP (fun e => e.1 = jobId) = 1 := by
  have henq0 : enqueueJob q jobId 0 0 now = zadd q jobId 0 := by
    unfold enqueueJob
    norm_num
  have henqd : enqueueJob q jobId 0 d now = zadd q jobId (now + (d : ℚ)) := by
    unfold enqueueJob
    rw [if_pos hd]
  refine ⟨?_, ?_, ?_, ?_, ?_⟩
  · rw [henq0]
    exact zadd_lookup q jobId 0
  · rw [henqd]
    exact zadd_lookup q jobId _
  · unfold dequeueJob
    rw [honly]
    rfl
  · intro e he
    unfold dequeueJob at he
    rw [honly] at he
    have he2 : e ∈ (enqueueJob q jobId 0 0 now).filter
        (fun e2 => ¬ e2.1 = (jobId, s).1) := he
    have hp := (List.mem_filter.mp he2).2
    simpa using hp
  · rw [henq0]
    exact zadd_countP q jobId 0 hcount

/-- Witness for C8 on the empty queue with wall clock 5 and delay 60. -/
theorem c8_queue_roundtrip_witness :
    lookupScore (enqueueJob [] sampleJobId 0 0 5) sampleJobId = some 0 ∧
    lookupScore (enqueueJob [] sampleJobId 0 60 5) sampleJobId = some (5 + (60 : ℚ)) ∧
    (dequeueJob (enqueueJob [] sampleJobId 0 0 5) 5).1 = some sampleJobId ∧
    (∀ e ∈ (dequeueJob (enqueueJob [] sampleJobId 0 0 5) 5).2, e.1 ≠ sampleJobId) ∧
    (enqueueJob [] sampleJobId 0 0 5).countP (fun e => e.1 = sampleJobId) = 1 :=
  c8_queue_roundtrip [] sampleJobId 5 0 60 (by norm_num)
    (by norm_num [enqueueJob, zadd]) (by simp)

/-- Claim C9: `acquire_slot` returns true only after performing an increment
whose observed post-increment value is at most the limit (net counter effect
`+1`); an increment that overshoots is immediately undone by a decrement
before the 1-second back-off; and a run that exhausts the timeout window
returns false with zero net change (its operation trace is fully
balanced). -/
theorem c9_acquire_slot_counter_discipline (limit : Int)
    (trace : List (Int × Int)) :
    ((acquireOps limit trace).1 = true →
      netOps (acquireOps limit trace).2 = 1 ∧
      (∃ a ∈ trace, a.1 < limit ∧ a.2 ≤ limit) ∧
      ∃ pre, BalancedOps pre ∧
        (acquireOps limit trace).2 = pre ++ [CtrOp.inc]) ∧
    ((acquireOps limit trace).1 = false →
      netOps (acquireOps limit trace).2 = 0 ∧
      BalancedOps (acquireOps limit trace).2) := by
  induction trace with
  | nil =>
    constructor
    · intro h
      simp [acquireOps] at h
    · intro _
      exact ⟨rfl, BalancedOps.nil⟩
  | cons a rest ih =>
    by_cases h1 : a.1 < limit
    · by_cases h2 : a.2 ≤ limit
      · have hres : acquireOps limit (a :: rest) = (true, [CtrOp.inc]) := by
          simp [acquireOps, h1, h2]
        rw [hres]
        constructor
        · intro _
          exact ⟨rfl, ⟨a, List.mem_cons_self _ _, h1, h2⟩,
            ⟨[], BalancedOps.nil, rfl⟩⟩
        · intro hf
          exact absurd hf (by simp)
      · have hres : acquireOps limit (a :: rest) =
            ((acquireOps limit rest).1,
             CtrOp.inc :: CtrOp.dec :: (acquireOps limit rest).2) := by
          simp [acquireOps, h1, h2]
        rw [hres]
        constructor
        · intro ht
          obtain ⟨hn, ⟨a2, ha2, hc1, hc2⟩, pre, hb, hsplit⟩ := ih.1 ht
          refine ⟨by rw [netOps_cons2]; exact hn,
            ⟨a2, List.mem_cons_of_mem _ ha2, hc1, hc2⟩,
            ⟨CtrOp.inc :: CtrOp.dec :: pre, BalancedOps.pair hb, ?_⟩⟩
          rw [hsplit]
          rfl
        · intro hf
          obtain ⟨hn, hb⟩ := ih.2 hf
          exact ⟨by rw [netOps_cons2]; exact hn, BalancedOps.pair hb⟩
    · have hres : acquireOps limit (a :: rest) = acquireOps limit rest := by
        simp [acquireOps, h1]
      rw [hres]
      constructor
      · intro ht
        obtain ⟨hn, ⟨a2, ha2, hc1, hc2⟩, pre, hb, hsplit⟩ := ih.1 ht
        exact ⟨hn, ⟨a2, List.mem_cons_of_mem _ ha2, hc1, hc2⟩, pre, hb, hsplit⟩
      · exact ih.2

/-- Witness for C9: limit 1, first attempt races (reads 0, increment returns
2, immediately decremented), second attempt succeeds. -/
theorem c9_acquire_slot_counter_discipline_witness :
    (acquireOps 1 [(0, 2), (0, 1)]).1 = true ∧
    netOps (acquireOps 1 [(0, 2), (0, 1)]).2 = 1 ∧
    (acquireOps 1 [(0, 2), (0, 1)]).2 =
      [CtrOp.inc, CtrOp.dec, CtrOp.inc] :=
  ⟨by decide,
   ((c9_acquire_slot_counter_discipline 1 [(0, 2), (0, 1)]).1 (by decide)).1,
   by decide⟩

/-- Claim C7 counterexample.  The claim states that at all three expansion
sites every token of the closed twelve-token set is substituted and that the
extension tokens yield the extension without its leading dot.  Evaluating
the expanders on file `a.mp4`: the chain generator leaves `{hour}`
unresolved, the worker substitutes `{ext}` with `.mp4` (the dot kept) and
leaves `{extension}` unresolved, and the event-dispatch expander leaves
`{extension}` and `{basename}` unresolved. -/
theorem c7_uniform_expander_counterexample :
    chainApplyPathTemplate tokHour sampleFileName sampleClock = tokHour ∧
    workerApplyPathTemplate tokExt sampleFileName sampleClock = dotMp4 ∧
    workerApplyPathTemplate tokExtension sampleFileName sampleClock = tokExtension ∧
    eventApplyPathTemplate tokBasename sampleFileName sampleClock = tokBasename := by
  decide

/-- Claim C7 (amended): each expansion site substitutes exactly its own
token table.  The worker and event-dispatch expanders handle
`{filename}`, `{original_filename}`, `{name}`, `{ext}`, `{year}`, `{month}`,
`{day}`, `{hour}`, `{minute}`, `{timestamp}` — with `{ext}` producing the
`os.path.splitext` extension including its leading dot — and leave
`{basename}`/`{extension}` verbatim; the chain generator handles `{year}`,
`{month}`, `{day}`, `{filename}`, `{basename}`, `{extension}` — with
`{extension}` stripped of leading dots — and leaves `{hour}`, `{minute}`,
`{timestamp}`, `{original_filename}`, `{name}`, `{ext}` verbatim.  The
event-dispatch expander coincides with the worker's.  (Stated for file
names without brace characters.) -/
theorem c7_site_specific_expansion (f : Str) (c : Clock) (hf : braceFree f) :
    workerApplyPathTemplate tokFilename f c = osBasename f ∧
    workerApplyPathTemplate tokOriginalFilename f c = osBasename f ∧
    workerApplyPathTemplate tokName f c = (splitextName (osBasename f)).1 ∧
    workerApplyPathTemplate tokExt f c = (splitextName (osBasename f)).2 ∧
    workerApplyPathTemplate tokYear f c = natDigits c.year ∧
    workerApplyPathTemplate tokMonth f c = format02 c.month ∧
    workerApplyPathTemplate tokDay f c = format02 c.day ∧
    workerApplyPathTemplate tokHour f c = format02 c.hour ∧
    workerApplyPathTemplate tokMinute f c = format02 c.minute ∧
    workerApplyPathTemplate tokTimestamp f c = natDigits c.tsec ∧
    workerApplyPathTemplate tokBasename f c = tokBasename ∧
    workerApplyPathTemplate tokExtension f c = tokExtension ∧
    (∀ t g, eventApplyPathTemplate t g c = workerApplyPathTemplate t g c) ∧
    chainApplyPathTemplate tokYear f c = natDigits c.year ∧
    chainApplyPathTemplate tokMonth f c = format02 c.month ∧
    chainApplyPathTemplate tokDay f c = format02 c.day ∧
    chainApplyPathTemplate tokFilename f c = osBasename f ∧
    chainApplyPathTemplate tokBasename f c = (splitextName (osBasename f)).1 ∧
    chainApplyPathTemplate tokExtension f c =
      ((splitextName (osBasename f)).2.dropWhile (· = '.')) ∧
    chainApplyPathTemplate tokHour f c = tokHour ∧
    chainApplyPathTemplate tokMinute f c = tokMinute ∧
    chainApplyPathTemplate tokTimestamp f c = tokTimestamp ∧
    chainApplyPathTemplate tokOriginalFilename f c = tokOriginalFilename ∧
    chainApplyPathTemplate tokName f c = tokName ∧
    chainApplyPathTemplate tokExt f c = tokExt := by
  have hfn : braceFree (osBasename f) := braceFree_subset (osBasename_subset f) hf
  have hnm : braceFree (splitextName (osBasename f)).1 :=
    braceFree_subset (splitextName_fst_subset _) hfn
  have hex : braceFree (splitextName (osBasename f)).2 :=
    braceFree_subset (splitextName_snd_subset _) hfn
  have hed : braceFree ((splitextName (osBasename f)).2.dropWhile (· = '.')) :=
    braceFree_subset ((List.dropWhile_sublist _).subset) hex
  refine ⟨?_, ?_, ?_, ?_, ?_, ?_, ?_, ?_, ?_, ?_, ?_, ?_, fun t g => rfl,
    ?_, ?_, ?_, ?_, ?_, ?_, ?_, ?_, ?_, ?_, ?_, ?_⟩
  · unfold workerApplyPathTemplate workerPasses
    rw [applyPasses_hit _ _ (by decide)]
    exact applyPasses_no_open
      (by intro pv h; fin_cases h <;> dsimp only <;> decide) hfn.1
  · unfold workerApplyPathTemplate workerPasses
    rw [applyPasses_skip _ _ (by decide), applyPasses_hit _ _ (by decide)]
    exact applyPasses_no_open
      (by intro pv h; fin_cases h <;> dsimp only <;> decide) hfn.1
  · unfold workerApplyPathTemplate workerPasses
    rw [applyPasses_skip _ _ (by decide), applyPasses_skip _ _ (by decide),
      applyPasses_hit _ _ (by decide)]
    exact applyPasses_no_open
      (by intro pv h; fin_cases h <;> dsimp only <;> decide) hnm.1
  · unfold workerApplyPathTemplate workerPasses
    rw [applyPasses_skip _ _ (by decide), applyPasses_skip _ _ (by decide),
      applyPasses_skip _ _ (by decide), applyPasses_hit _ _ (by decide)]
    exact applyPasses_no_open
      (by intro pv h; fin_cases h <;> dsimp only <;> decide) hex.1
  · unfold workerApplyPathTemplate workerPasses
    rw [applyPasses_skip _ _ (by decide), applyPasses_skip _ _ (by decide),
      applyPasses_skip _ _ (by decide), applyPasses_skip _ _ (by decide),
      applyPasses_hit _ _ (by decide)]
    exact applyPasses_no_open
      (by intro pv h; fin_cases h <;> dsimp only <;> decide)
      (braceFree_natDigits _).1
  · unfold workerApplyPathTemplate workerPasses
    rw [applyPasses_skip _ _ (by decide), applyPasses_skip _ _ (by decide),
      applyPasses_skip _ _ (by decide), applyPasses_skip _ _ (by decide),
      applyPasses_skip _ _ (by decide), applyPasses_hit _ _ (by decide)]
    exact applyPasses_no_open
      (by intro pv h; fin_cases h <;> dsimp only <;> decide)
      (braceFree_format02 _).1
  · unfold workerApplyPathTemplate workerPasses
    rw [applyPasses_skip _ _ (by decide), applyPasses_skip _ _ (by decide),
      applyPasses_skip _ _ (by decide), applyPasses_skip _ _ (by decide),
      applyPasses_skip _ _ (by decide), applyPasses_skip _ _ (by decide),
      applyPasses_hit _ _ (by decide)]
    exact applyPasses_no_open
      (by intro pv h; fin_cases h <;> dsimp only <;> decide)
      (braceFree_format02 _).1
  · unfold workerApplyPathTemplate workerPasses
    rw [applyPasses_skip _ _ (by decide), applyPasses_skip _ _ (by decide),
      applyPasses_skip _ _ (by decide), applyPasses_skip _ _ (by decide),
      applyPasses_skip _ _ (by decide), applyPasses_skip _ _ (by decide),
      applyPasses_skip _ _ (by decide), applyPasses_hit _ _ (by decide)]
    exact applyPasses_no_open
      (by intro pv h; fin_cases h <;> dsimp only <;> decide)
      (braceFree_format02 _).1
  · unfold workerApplyPathTemplate workerPasses
    rw [applyPasses_skip _ _ (by decide), applyPasses_skip _ _ (by decide),
      applyPasses_skip _ _ (by decide), applyPasses_skip _ _ (by decide),
      applyPasses_skip _ _ (by decide), applyPasses_skip _ _ (by decide),
      applyPasses_skip _ _ (by decide), applyPasses_skip _ _ (by decide),
      applyPasses_hit _ _ (by decide)]
    exact applyPasses_no_open
      (by intro pv h; fin_cases h <;> dsimp only <;> decide)
      (braceFree_format02 _).1
  · unfold workerApplyPathTemplate workerPasses
    rw [applyPasses_skip _ _ (by decide), applyPasses_skip _ _ (by decide),
      applyPasses_skip _ _ (by decide), applyPasses_skip _ _ (by decide),
      applyPasses_skip _ _ (by decide), applyPasses_skip _ _ (by decide),
      applyPasses_skip _ _ (by decide), applyPasses_skip _ _ (by decide),
      applyPasses_skip _ _ (by decide), applyPasses_hit _ _ (by decide)]
    exact applyPasses_no_open (by intro pv h; exact absurd h (List.not_mem_nil pv))
      (braceFree_natDigits _).1
  · unfold workerApplyPathTemplate workerPasses
    rw [applyPasses_skip _ _ (by decide), applyPasses_skip _ _ (by decide),
      applyPasses_skip _ _ (by decide), applyPasses_skip _ _ (by decide),
      applyPasses_skip _ _ (by decide), applyPasses_skip _ _ (by decide),
      applyPasses_skip _ _ (by decide), applyPasses_skip _ _ (by decide),
      applyPasses_skip _ _ (by decide), applyPasses_skip _ _ (by decide)]
    rfl
  · unfold workerApplyPathTemplate workerPasses
    rw [applyPasses_skip _ _ (by decide), applyPasses_skip _ _ (by decide),
      applyPasses_skip _ _ (by decide), applyPasses_skip _ _ (by decide),
      applyPasses_skip _ _ (by decide), applyPasses_skip _ _ (by decide),
      applyPasses_skip _ _ (by decide), applyPasses_skip _ _ (by decide),
      applyPasses_skip _ _ (by decide), applyPasses_skip _ _ (by decide)]
    rfl
  · unfold chainApplyPathTemplate chainPasses
    rw [applyPasses_hit _ _ (by decide)]
    exact applyPasses_no_open
      (by intro pv h; fin_cases h <;> dsimp only <;> decide)
      (braceFree_natDigits _).1
  · unfold chainApplyPathTemplate chainPasses
    rw [applyPasses_skip _ _ (by decide), applyPasses_hit _ _ (by decide)]
    exact applyPasses_no_open
      (by intro pv h; fin_cases h <;> dsimp only <;> decide)
      (braceFree_format02 _).1
  · unfold chainApplyPathTemplate chainPasses
    rw [applyPasses_skip _ _ (by decide), applyPasses_skip _ _ (by decide),
      applyPasses_hit _ _ (by decide)]
    exact applyPasses_no_open
      (by intro pv h; fin_cases h <;> dsimp only <;> decide)
      (braceFree_format02 _).1
  · unfold chainApplyPathTemplate chainPasses
    rw [applyPasses_skip _ _ (by decide), applyPasses_skip _ _ (by decide),
      applyPasses_skip _ _ (by decide), applyPasses_hit _ _ (by decide)]
    exact applyPasses_no_open
      (by intro pv h; fin_cases h <;> dsimp only <;> decide) hfn.1
  · unfold chainApplyPathTemplate chainPasses
    rw [applyPasses_skip _ _ (by decide), applyPasses_skip _ _ (by decide),
      applyPasses_skip _ _ (by decide), applyPasses_skip _ _ (by decide),
      applyPasses_hit _ _ (by decide)]
    exact applyPasses_no_open
      (by intro pv h; fin_cases h <;> dsimp only <;> decide) hnm.1
  · unfold chainApplyPathTemplate chainPasses
    rw [applyPasses_skip _ _ (by decide), applyPasses_skip _ _ (by decide),
      applyPasses_skip _ _ (by decide), applyPasses_skip _ _ (by decide),
      applyPasses_skip _ _ (by decide), applyPasses_hit _ _ (by decide)]
    exact applyPasses_no_open (by intro pv h; exact absurd h (List.not_mem_nil pv))
      hed.1
  · unfold chainApplyPathTemplate chainPasses
    rw [applyPasses_skip _ _ (by decide), applyPasses_skip _ _ (by decide),
      applyPasses_skip _ _ (by decide), applyPasses_skip _ _ (by decide),
      applyPasses_skip _ _ (by decide), applyPasses_skip _ _ (by decide)]
    rfl
  · unfold chainApplyPathTemplate chainPasses
    rw [applyPasses_skip _ _ (by decide), applyPasses_skip _ _ (by decide),
      applyPasses_skip _ _ (by decide), applyPasses_skip _ _ (by decide),
      applyPasses_skip _ _ (by decide), applyPasses_skip _ _ (by decide)]
    rfl
  · unfold chainApplyPathTemplate chainPasses
    rw [applyPasses_skip _ _ (by decide), applyPasses_skip _ _ (by decide),
      applyPasses_skip _ _ (by decide), applyPasses_skip _ _ (by decide),
      applyPasses_skip _ _ (by decide), applyPasses_skip _ _ (by decide)]
    rfl
  · unfold chainApplyPathTemplate chainPasses
    rw [applyPasses_skip _ _ (by decide), applyPasses_skip _ _ (by decide),
      applyPasses_skip _ _ (by decide), applyPasses_skip _ _ (by decide),
      applyPasses_skip _ _ (by decide), applyPasses_skip _ _ (by decide)]
    rfl
  · unfold chainApplyPathTemplate chainPasses
    rw [applyPasses_skip _ _ (by decide), applyPasses_skip _ _ (by decide),
      applyPasses_skip _ _ (by decide), applyPasses_skip _ _ (by decide),
      applyPasses_skip _ _ (by decide), applyPasses_skip _ _ (by decide)]
    rfl
  · unfold chainApplyPathTemplate chainPasses
    rw [applyPasses_skip _ _ (by decide), applyPasses_skip _ _ (by decide),
      applyPasses_skip _ _ (by decide), applyPasses_skip _ _ (by decide),
      applyPasses_skip _ _ (by decide), applyPasses_skip _ _ (by decide)]
    rfl

/-- Witness for C7 (amended) on file `a.mp4`. -/
theorem c7_site_specific_expansion_witness :
    braceFree sampleFileName ∧
    workerApplyPathTemplate tokFilename sampleFileName sampleClock =
      osBasename sampleFileName :=
  ⟨by decide, (c7_site_specific_expansion sampleFileName sampleClock (by decide)).1⟩

end FileOrbit
